import Mathlib

/-!
Shallow embedding of the `rpcsrv` package of github.com/sigex-kz/ddc
(files `rpcsrv/builder.go`, `rpcsrv/extractor.go`, `rpcsrv/storage.go`,
`rpcsrv/clamav-client.go`) together with the one library function the
server calls whose behaviour matters here (`ddc.ExtractAttachments`).

Modelling conventions:
* Go `[]byte` buffers are `List Nat` (byte values; the numeric range is
  irrelevant to the properties below).
* `bytes.Buffer` is a `List Nat`; `Write` appends, `Next n` returns the
  first `n` elements and drops them, `Len` is the length.
* The session store (`storage.go`, a go-cache keyed by random ids) is a
  function `String → Option Entry`.  Expiration and the sweep only remove
  entries, so an expired or deleted id is modelled by the store returning
  `none`.  The per-record mutex serialises calls; each RPC method is
  modelled as a pure function from the store to the new store plus an
  outcome.
* A Go method that reports a problem — either through a `resp.Error`
  string field (Builder methods) or through a non-nil returned `error`
  (Extractor methods) — yields `Outcome.err msg`; both are caller-visible
  error results of the RPC.  A Go runtime panic (nil-pointer dereference,
  index out of range) yields `Outcome.panic msg`.
* External effects are parameters: `scan` stands for `clamAVScan`
  (daemon verdict included), `render` for the `ddc.NewBuilder` /
  `EmbedPDF` / `EmbedDoc` / `Build` pipeline, `extractRaw` for
  `pdfcpuapi.ExtractAttachmentsRaw`.  `clamAVScan` itself (the dial/retry
  logic of `clamav-client.go`) is modelled separately further down.
-/

/-- Result of one RPC method call, as observed by the process:
either a normal return carrying a value, a caller-visible error string,
or a Go runtime panic. -/
inductive Outcome (α : Type) where
  | ok : α → Outcome α
  | err : String → Outcome α
  | panic : String → Outcome α
deriving DecidableEq

/-- `ddc.SignatureInfo` (ddc.go).  `Body` is the scanned signature blob;
`FileName` and `SignerName` are passed through unmodified.  The optional
rich visualization record (`*SignatureVisualization`) is never read by the
server code, so its pointed-to content is collapsed to an uninterpreted
`Option String`. -/
structure SignatureInfo where
  Body : List Nat
  FileName : String
  SignerName : String
  SignatureVisualization : Option String
deriving DecidableEq

/-- `ddc.DocumentInfo` (ddc.go), restricted to the fields the rpcsrv
package reads or writes (`builder.go` `Register`/`AppendSignature`);
the remaining optional visualization fields are never touched by the
server code. -/
structure DocumentInfo where
  Title : String
  Description : String
  ID : String
  IDQRCode : List Nat
  Signatures : List SignatureInfo
deriving DecidableEq

/-- `ddc.AttachedFile` (ddc.go): a named byte blob extracted from a DDC. -/
structure AttachedFile where
  Name : String
  Bytes : List Nat
deriving DecidableEq

/-- `builderEntry` (storage.go). -/
structure BuilderEntry where
  di : DocumentInfo
  embeddedFileName : String
  embeddedFileBuffer : List Nat
  ddcFileBuffer : List Nat
deriving DecidableEq

/-- `extractorEntry` (storage.go).  In Go, `documentOriginal` is a nil-able
pointer and `signatures` a nil-able slice; `Option` keeps the nil /
non-nil-but-empty distinction that `extractor.go` relies on. -/
structure ExtractorEntry where
  ddcFileBuffer : List Nat
  documentOriginal : Option AttachedFile
  documentOriginalBytesRead : Nat
  signatures : Option (List AttachedFile)
deriving DecidableEq

/-- `entry` (storage.go): owns one of the two session kinds through
nil-able pointers.  The creation timestamp and mutex carry no information
for the sequential model. -/
structure Entry where
  be : Option BuilderEntry
  ee : Option ExtractorEntry
deriving DecidableEq

/-- The session store: go-cache keyed by the id string. -/
def Store : Type := String → Option Entry

/-- `getStoreEntry` (storage.go): lookup; a missing (unknown, expired or
deleted) id is the error "unknown id".  The type-assertion panic in the
Go code is unreachable (only `*entry` values are ever stored), so it does
not appear in the model. -/
def getStoreEntry (store : Store) (id : String) : Except String Entry :=
  match store id with
  | none => .error "unknown id"
  | some e => .ok e

/-- Writing an entry back to the store: in Go the entry is mutated in
place through the pointer obtained from `getStoreEntry`. -/
def setStoreEntry (store : Store) (id : String) (e : Entry) : Store :=
  fun k => if k = id then some e else store k

/-- `deleteStoreEntry` (storage.go): `store.Delete(id)`. -/
def deleteStoreEntry (store : Store) (id : String) : Store :=
  fun k => if k = id then none else store k

namespace Builder

/-- `Builder.AppendDocumentPart` (builder.go lines 74-96): look the entry
up, error on unknown id or a non-builder entry, otherwise append the
bytes to the embedded-document buffer (`bytes.Buffer.Write` never fails
on an in-memory buffer). -/
def AppendDocumentPart (store : Store) (id : String) (b : List Nat) :
    Store × Outcome Unit :=
  match getStoreEntry store id with
  | .error msg => (store, .err msg)
  | .ok e =>
    match e.be with
    | none => (store, .err "unknown id")
    | some be =>
      (setStoreEntry store id
        { e with be := some { be with embeddedFileBuffer := be.embeddedFileBuffer ++ b } },
       .ok ())

/-- `Builder.AppendSignature` (builder.go lines 114-138): scan the
signature body first (before even touching the store); on a scan error
return it; otherwise look the entry up and append the descriptor to
`di.Signatures`. -/
def AppendSignature (scan : List Nat → Except String Unit)
    (store : Store) (id : String) (si : SignatureInfo) :
    Store × Outcome Unit :=
  match scan si.Body with
  | .error msg => (store, .err msg)
  | .ok _ =>
    match getStoreEntry store id with
    | .error msg => (store, .err msg)
    | .ok e =>
      match e.be with
      | none => (store, .err "unknown id")
      | some be =>
        (setStoreEntry store id
          { e with be := some ({ be with di := { be.di with Signatures := be.di.Signatures ++ [si] } }) },
         .ok ())

/-- Arguments of `Builder.Build` other than the slot id. -/
structure BuildArgs where
  CreationDate : String
  BuilderName : String
  HowToVerify : String
  WithoutDocumentVisualization : Bool
  WithoutSignaturesVisualization : Bool
deriving DecidableEq

/-- `Builder.Build` (builder.go lines 170-214).  The Go code evaluates
`e.be.embeddedFileBuffer.Bytes()` as the argument of `clamAVScan` *before*
its `e.be == nil` check, so on an entry of the extractor family the call
dereferences the nil `*builderEntry` and panics; the later nil check is
dead code.  On the builder family: scan the accumulated document, then
run the ddc build pipeline (`render` abstracts `ddc.NewBuilder` +
`EmbedDoc`/`EmbedPDF` + `Build`), writing the produced PDF into
`ddcFileBuffer` (an `io.Writer`, hence append). -/
def Build (scan : List Nat → Except String Unit)
    (render : DocumentInfo → List Nat → String → BuildArgs → Except String (List Nat))
    (store : Store) (id : String) (args : BuildArgs) : Store × Outcome Unit :=
  match getStoreEntry store id with
  | .error msg => (store, .err msg)
  | .ok e =>
    match e.be with
    | none => (store, .panic "runtime error: invalid memory address or nil pointer dereference")
    | some be =>
      match scan be.embeddedFileBuffer with
      | .error msg => (store, .err msg)
      | .ok _ =>
        match render be.di be.embeddedFileBuffer be.embeddedFileName args with
        | .error msg => (store, .err msg)
        | .ok out =>
          (setStoreEntry store id
            { e with be := some { be with ddcFileBuffer := be.ddcFileBuffer ++ out } },
           .ok ())

/-- `Builder.GetDDCPart` (builder.go lines 238-259): no build-state check;
`ddcFileBuffer.Next(MaxPartSize)` pops up to `MaxPartSize` bytes off the
front of the output buffer, and `IsFinal` is set when the buffer is now
empty.  `MaxPartSize` is a Go `int`; the claims below only concern
non-negative sizes, so it is a `Nat` here. -/
def GetDDCPart (store : Store) (id : String) (maxPartSize : Nat) :
    Store × Outcome (List Nat × Bool) :=
  match getStoreEntry store id with
  | .error msg => (store, .err msg)
  | .ok e =>
    match e.be with
    | none => (store, .err "unknown id")
    | some be =>
      (setStoreEntry store id
        { e with be := some { be with ddcFileBuffer := be.ddcFileBuffer.drop maxPartSize } },
       .ok (be.ddcFileBuffer.take maxPartSize, (be.ddcFileBuffer.drop maxPartSize).isEmpty))

/-- `Builder.Drop` (builder.go lines 274-277): unconditional
`deleteStoreEntry`, always returns with an empty error. -/
def Drop (store : Store) (id : String) : Store × Outcome Unit :=
  (deleteStoreEntry store id, .ok ())

end Builder

/-- `ddc.ExtractAttachments` (ddc.go): run the raw pdfcpu extraction
(abstracted as `extractRaw`), then require at least
`constMinimalAttachmentsDuringExport = 2` attachments; the first becomes
the original document, the rest become the signatures in order.  The
`io.ReadAll` calls on the in-memory attachment readers cannot fail and
are absorbed into `extractRaw`. -/
def ExtractAttachments (extractRaw : List Nat → Except String (List AttachedFile))
    (pdf : List Nat) : Except String (AttachedFile × List AttachedFile) :=
  match extractRaw pdf with
  | .error msg => .error msg
  | .ok attachments =>
    match attachments with
    | a :: b :: rest => .ok (a, b :: rest)
    | short => .error ("PDF contains less than " ++ toString short.length ++ " attachments (2)")

/-- The loop in `Extractor.Parse` scanning each extracted signature in
order, stopping at the first scan error. -/
def scanAll (scan : List Nat → Except String Unit) : List AttachedFile → Except String Unit
  | [] => .ok ()
  | s :: rest =>
    match scan s.Bytes with
    | .error msg => .error msg
    | .ok _ => scanAll scan rest

namespace Extractor

/-- `Extractor.AppendDDCPart` (extractor.go lines 36-52): append the part
to the input buffer; unknown id or a non-extractor entry is an error. -/
def AppendDDCPart (store : Store) (id : String) (b : List Nat) :
    Store × Outcome Unit :=
  match getStoreEntry store id with
  | .error msg => (store, .err msg)
  | .ok e =>
    match e.ee with
    | none => (store, .err "unknown id")
    | some ee =>
      (setStoreEntry store id
        { e with ee := some { ee with ddcFileBuffer := ee.ddcFileBuffer ++ b } },
       .ok ())

/-- `Extractor.Parse` (extractor.go lines 62-103).  As in `Builder.Build`,
the argument `e.ee.ddcFileBuffer.Bytes()` of the first `clamAVScan` is
evaluated *before* the `e.ee == nil` check, so a builder-family entry
panics and the later nil check is dead.  Otherwise: scan the whole input,
extract the attachments, scan the original document, scan every signature,
and only then commit `documentOriginal` and `signatures` to the session
and return the document file name. -/
def Parse (scan : List Nat → Except String Unit)
    (extractRaw : List Nat → Except String (List AttachedFile))
    (store : Store) (id : String) : Store × Outcome String :=
  match getStoreEntry store id with
  | .error msg => (store, .err msg)
  | .ok e =>
    match e.ee with
    | none => (store, .panic "runtime error: invalid memory address or nil pointer dereference")
    | some ee =>
      match scan ee.ddcFileBuffer with
      | .error msg => (store, .err msg)
      | .ok _ =>
        match ExtractAttachments extractRaw ee.ddcFileBuffer with
        | .error msg => (store, .err msg)
        | .ok (documentOriginal, signatures) =>
          match scan documentOriginal.Bytes with
          | .error msg => (store, .err msg)
          | .ok _ =>
            match scanAll scan signatures with
            | .error msg => (store, .err msg)
            | .ok _ =>
              (setStoreEntry store id
                { e with ee := some ({ ee with
                      documentOriginal := some documentOriginal,
                      signatures := some signatures }) },
               .ok documentOriginal.Name)

/-- `Extractor.GetDocumentPart` (extractor.go lines 127-159): requires a
parsed session (`documentOriginal` non-nil), optionally rewinds the read
cursor to 0, then serves up to `maxPartSize` bytes from the cursor,
advances the cursor, and reports `IsFinal` when this chunk reaches the end
of the document (Go: `partSize >= bytesRemain`). -/
def GetDocumentPart (store : Store) (id : String) (maxPartSize : Nat) (rewind : Bool) :
    Store × Outcome (List Nat × Bool) :=
  match getStoreEntry store id with
  | .error msg => (store, .err msg)
  | .ok e =>
    match e.ee with
    | none => (store, .err "unknown id")
    | some ee =>
      match ee.documentOriginal with
      | none => (store, .err "DDC not parsed")
      | some doc =>
        let cursor := if rewind then 0 else ee.documentOriginalBytesRead
        let bytesRemain := doc.Bytes.length - cursor
        let partSize := if bytesRemain ≤ maxPartSize then bytesRemain else maxPartSize
        (setStoreEntry store id
          { e with ee := some { ee with documentOriginalBytesRead := cursor + partSize } },
         .ok ((doc.Bytes.drop cursor).take partSize, decide (bytesRemain ≤ maxPartSize)))

/-- `Extractor.GetSignature` (extractor.go lines 177-203): a nil
signature slice means Parse has not succeeded ("DDC not parsed"); on a
non-nil slice the code reads `e.ee.signatures[0]` unconditionally, so an
exhausted (empty but non-nil) queue panics with an index-out-of-range
runtime error; otherwise the head is popped and `IsFinal` reports whether
the remaining queue is empty. -/
def GetSignature (store : Store) (id : String) :
    Store × Outcome (AttachedFile × Bool) :=
  match getStoreEntry store id with
  | .error msg => (store, .err msg)
  | .ok e =>
    match e.ee with
    | none => (store, .err "unknown id")
    | some ee =>
      match ee.signatures with
      | none => (store, .err "DDC not parsed")
      | some [] => (store, .panic "runtime error: index out of range [0] with length 0")
      | some (s :: rest) =>
        (setStoreEntry store id { e with ee := some { ee with signatures := some rest } },
         .ok (s, rest.isEmpty))

/-- `Extractor.Drop` (extractor.go lines 212-215): unconditional delete,
always succeeds. -/
def Drop (store : Store) (id : String) : Store × Outcome Unit :=
  (deleteStoreEntry store id, .ok ())

end Extractor

/-!
Model of `clamAVScan` itself (clamav-client.go lines 29-97), with the
network externalised: `dial i` is the outcome of the `i`-th
`net.DialTimeout` attempt (`none` = connected, `some e` = failed with
error string `e`), and `stream data` is the outcome of the whole
INSTREAM exchange over an established connection (command write, chunked
length-prefixed payload, terminator, response read and comparison against
"stream: OK\n") — an infected verdict surfaces here as an error carrying
the daemon's response text.
-/

/-- The retry loop of `clamAVScan`: `err` has just been set by a failed
first dial; `for range 10 { conn, err = net.DialTimeout(...); if err == nil
{ break } }`.  Returns the value the Go variable `err` holds after the
loop: `none` if some retry connected (the loop broke with a nil error),
otherwise the error of the *last* attempt. -/
def dialRetryFrom (dial : Nat → Option String) (attempt : Nat) :
    Nat → String → Option String
  | 0, err => some err
  | remaining + 1, _ =>
    match dial attempt with
    | none => none
    | some e => dialRetryFrom dial (attempt + 1) remaining e

/-- `clamAVScan` (clamav-client.go): no-op when the scanner is not
configured; otherwise dial once, and on failure run the retry loop and
`return err` — note that this `return` is taken even when a retry
connected (err nil), in which case the function returns success *without
streaming the payload*.  Only a first-attempt connection reaches the
streaming code. -/
def clamAVScan (configured : Bool) (dial : Nat → Option String)
    (stream : List Nat → Except String Unit) (data : List Nat) :
    Except String Unit :=
  if configured = false then .ok ()
  else
    match dial 0 with
    | none => stream data
    | some e0 =>
      match dialRetryFrom dial 1 10 e0 with
      | none => .ok ()
      | some e => .error e

/-!
Concrete sessions and stores used by the theorems below.
-/

/-- A fresh extractor session, as created by `Extractor.Register`. -/
def eeFresh : ExtractorEntry :=
  { ddcFileBuffer := [], documentOriginal := none, documentOriginalBytesRead := 0,
    signatures := none }

/-- A fresh builder session, as created by `Builder.Register`. -/
def beFresh : BuilderEntry :=
  { di := { Title := "t", Description := "d", ID := "", IDQRCode := [], Signatures := [] },
    embeddedFileName := "doc.pdf", embeddedFileBuffer := [], ddcFileBuffer := [] }

def docFileA : AttachedFile := { Name := "doc.pdf", Bytes := [5, 6, 7] }

def sigFileA : AttachedFile := { Name := "sig1.bin", Bytes := [1, 2] }

def sigInfoA : SignatureInfo :=
  { Body := [3], FileName := "s.sig", SignerName := "A", SignatureVisualization := none }

/-- A parsed extractor session whose signature queue has been fully
consumed: `signatures` is the empty-but-non-nil slice left behind by the
last pop (`e.ee.signatures = e.ee.signatures[1:]`). -/
def eeExhausted : ExtractorEntry :=
  { ddcFileBuffer := [9], documentOriginal := some docFileA, documentOriginalBytesRead := 3,
    signatures := some [] }

/-- A parsed extractor session with one signature left in the queue. -/
def eeOneSig : ExtractorEntry :=
  { ddcFileBuffer := [9], documentOriginal := some docFileA, documentOriginalBytesRead := 0,
    signatures := some [sigFileA] }

/-- A store holding an extractor session under id "7" and a builder
session under id "3". -/
def storeCross : Store := fun k =>
  if k = "7" then some { be := none, ee := some eeFresh }
  else if k = "3" then some { be := some beFresh, ee := none }
  else none

/-- A store with parsed extractor sessions: queue exhausted under "9",
one signature left under "8", and a never-parsed session under "5". -/
def storeSig : Store := fun k =>
  if k = "9" then some { be := none, ee := some eeExhausted }
  else if k = "8" then some { be := none, ee := some eeOneSig }
  else if k = "5" then some { be := none, ee := some eeFresh }
  else none

def buildArgs0 : Builder.BuildArgs :=
  { CreationDate := "", BuilderName := "", HowToVerify := "",
    WithoutDocumentVisualization := false, WithoutSignaturesVisualization := false }

/-- A builder session that has accumulated one document byte but has not
been built. -/
def storePre : Store := fun k =>
  if k = "4" then some { be := some { beFresh with embeddedFileBuffer := [1] }, ee := none }
  else none

/-- A scan stub standing for `clamAVScan` when it accepts everything
(e.g. scanner not configured). -/
def scanOkFun : List Nat → Except String Unit := fun _ => .ok ()

/-- A render stub standing for a ddc build pipeline that succeeds and
produces the two-byte PDF `[7, 8]`. -/
def renderFixed : DocumentInfo → List Nat → String → Builder.BuildArgs →
    Except String (List Nat) := fun _ _ _ _ => .ok [7, 8]

/-- A builder session that has been built: output buffer `[7, 8]`. -/
def beBuilt : BuilderEntry := { beFresh with embeddedFileBuffer := [1], ddcFileBuffer := [7, 8] }

/-- A store holding the built builder session under id "6". -/
def storeServe : Store := fun k =>
  if k = "6" then some { be := some beBuilt, ee := none } else none

/-- A raw-extraction stub returning a single attachment. -/
def extractShort : List Nat → Except String (List AttachedFile) := fun _ => .ok [docFileA]

/-- A raw-extraction stub returning a document plus one signature. -/
def extractTwo : List Nat → Except String (List AttachedFile) :=
  fun _ => .ok [docFileA, sigFileA]

/-!
Call drivers: the client-side loops the spec talks about ("repeatedly
calling ... until IsFinal", "feeding the chunks in order").  `fuel`
bounds the number of calls so the driver is total; the theorems show any
bound of at least the buffer length completes the run.
-/

/-- Repeatedly call `Builder.GetDDCPart`, collecting the returned
(part, isFinal) pairs, stopping at the first final part. -/
def runGetDDCParts (id : String) (m : Nat) : Store → Nat → List (List Nat × Bool)
  | _, 0 => []
  | store, fuel + 1 =>
    match Builder.GetDDCPart store id m with
    | (_, Outcome.ok (part, true)) => [(part, true)]
    | (store', Outcome.ok (part, false)) => (part, false) :: runGetDDCParts id m store' fuel
    | (_, _) => []

/-- Repeatedly call `Extractor.GetDocumentPart` with `rewind = false`,
collecting the returned (part, isFinal) pairs, stopping at the first
final part. -/
def runGetDocParts (id : String) (m : Nat) : Store → Nat → List (List Nat × Bool)
  | _, 0 => []
  | store, fuel + 1 =>
    match Extractor.GetDocumentPart store id m false with
    | (_, Outcome.ok (part, true)) => [(part, true)]
    | (store', Outcome.ok (part, false)) => (part, false) :: runGetDocParts id m store' fuel
    | (_, _) => []

/-- Read the whole document: one `Extractor.GetDocumentPart` call with
`rewind = true`, then plain chunked reads until the final part. -/
def runRewindRead (store : Store) (id : String) (m : Nat) (fuel : Nat) :
    List (List Nat × Bool) :=
  match Extractor.GetDocumentPart store id m true with
  | (_, Outcome.ok (part, true)) => [(part, true)]
  | (store', Outcome.ok (part, false)) => (part, false) :: runGetDocParts id m store' fuel
  | (_, _) => []

/-- Feed a list of chunks through `Builder.AppendDocumentPart` in order. -/
def runAppendDocumentParts (id : String) : Store → List (List Nat) → Store
  | store, [] => store
  | store, c :: cs => runAppendDocumentParts id (Builder.AppendDocumentPart store id c).1 cs

/-- Feed a list of chunks through `Extractor.AppendDDCPart` in order. -/
def runAppendDDCParts (id : String) : Store → List (List Nat) → Store
  | store, [] => store
  | store, c :: cs => runAppendDDCParts id (Extractor.AppendDDCPart store id c).1 cs

/-- The chunking contract of the spec for a produced list of
(part, isFinal) answers, against full buffer `d` and size bound `m`:
the parts concatenate to `d` exactly once, `isFinal` is true on the last
answer and on no earlier one, and every part is at most `m` long. -/
def chunksOK (chunks : List (List Nat × Bool)) (d : List Nat) (m : Nat) : Prop :=
  (chunks.map Prod.fst).flatten = d ∧
  chunks.map Prod.snd = List.replicate (chunks.length - 1) false ++ [true] ∧
  ∀ p ∈ chunks, p.1.length ≤ m

/-- Claim C1: the spec says every RPC operation on an unknown, expired,
deleted or wrong-family id returns a caller-visible error and never
panics.  The code violates this for exactly the two one-shot operations:
`Builder.Build` evaluates `e.be.embeddedFileBuffer.Bytes()` before its
nil check, and `Extractor.Parse` evaluates `e.ee.ddcFileBuffer.Bytes()`
before its nil check, so each panics on an id of the other family, while
the other operations (and unknown ids) do return error results. -/
theorem C1_cross_family_build_and_parse_panic :
    (Builder.Build scanOkFun renderFixed storeCross "7" buildArgs0).2
      = Outcome.panic "runtime error: invalid memory address or nil pointer dereference" ∧
    (Extractor.Parse scanOkFun (fun _ => .ok []) storeCross "3").2
      = Outcome.panic "runtime error: invalid memory address or nil pointer dereference" ∧
    (Builder.AppendDocumentPart storeCross "7" [1]).2 = Outcome.err "unknown id" ∧
    (Builder.GetDDCPart storeCross "7" 1).2 = Outcome.err "unknown id" ∧
    (Extractor.GetSignature storeCross "3").2 = Outcome.err "unknown id" ∧
    (Extractor.GetDocumentPart storeCross "3" 1 false).2 = Outcome.err "unknown id" ∧
    (Builder.Build scanOkFun renderFixed storeCross "gone" buildArgs0).2
      = Outcome.err "unknown id" ∧
    (Extractor.Parse scanOkFun (fun _ => .ok []) storeCross "gone").2
      = Outcome.err "unknown id" := by
  refine ⟨rfl, rfl, rfl, rfl, rfl, rfl, rfl, rfl⟩

/-- Claim C2: the spec says a successful retry dial lets the scan proceed
(payload streamed, daemon verdict decides) and that on exhaustion the
*first* dial error is surfaced.  The code does neither: the `return err`
after the retry loop is taken unconditionally, so a successful retry
returns success *without scanning* (first conjunct: an infected payload
passes), and on exhaustion the surfaced error is the error of the *last*
attempt (second conjunct).  Only a first-attempt connection streams the
payload (third conjunct). -/
theorem C2_dial_retry_skips_scan_and_returns_last_error :
    clamAVScan true (fun i => if i = 1 then none else some "dial tcp: connection refused")
      (fun _ => Except.error "stream: Win.Test.EICAR FOUND\n") [0] = Except.ok () ∧
    clamAVScan true (fun i => some ("dial error " ++ toString i))
      (fun _ => Except.ok ()) [0] = Except.error "dial error 10" ∧
    clamAVScan true (fun _ => none)
      (fun _ => Except.error "stream: Win.Test.EICAR FOUND\n") [0]
      = Except.error "stream: Win.Test.EICAR FOUND\n" := by
  refine ⟨rfl, rfl, rfl⟩

/-- Claim C3: popping works as specified while the queue is non-empty
(first two conjuncts) and the not-parsed error is distinguishable (third
conjunct), but calling GetSignature on an already-empty queue does not
return an error as the spec demands — it panics with an index-out-of-range
runtime error (last conjunct). -/
theorem C3_get_signature_empty_queue_panics :
    (Extractor.GetSignature storeSig "8").2 = Outcome.ok (sigFileA, true) ∧
    (Extractor.GetSignature storeSig "8").1 "8"
      = some { be := none, ee := some { eeOneSig with signatures := some [] } } ∧
    (Extractor.GetSignature storeSig "5").2 = Outcome.err "DDC not parsed" ∧
    (Extractor.GetSignature storeSig "9").2
      = Outcome.panic "runtime error: index out of range [0] with length 0" := by
  refine ⟨rfl, rfl, rfl, rfl⟩

/-- Claim C4 counterexample: GetDDCPart on a builder session *before*
any Build succeeds with an empty final part instead of returning a
usage-error result, and after a successful Build both Append operations
still succeed instead of returning a usage-error result. -/
theorem C4_counterexample_no_usage_errors :
    (Builder.GetDDCPart storeCross "3" 10).2 = Outcome.ok ([], true) ∧
    (Builder.Build scanOkFun renderFixed storePre "4" buildArgs0).2 = Outcome.ok () ∧
    (Builder.AppendDocumentPart
      (Builder.Build scanOkFun renderFixed storePre "4" buildArgs0).1 "4" [2]).2
      = Outcome.ok () ∧
    (Builder.AppendSignature scanOkFun
      (Builder.Build scanOkFun renderFixed storePre "4" buildArgs0).1 "4" sigInfoA).2
      = Outcome.ok () := by
  refine ⟨rfl, rfl, rfl, rfl⟩

/-- Claim C10: Drop (either family's) deletes whatever record is stored
under the id, regardless of its kind, and always reports success; all
subsequent calls bearing that id fail with the not-found error. -/
theorem C10_drop_deletes_regardless_of_kind (store : Store) (id : String)
    (scan : List Nat → Except String Unit)
    (render : DocumentInfo → List Nat → String → Builder.BuildArgs → Except String (List Nat))
    (extractRaw : List Nat → Except String (List AttachedFile))
    (args : Builder.BuildArgs) (b : List Nat) (m : Nat) :
    (Builder.Drop store id).2 = Outcome.ok () ∧
    (Extractor.Drop store id).2 = Outcome.ok () ∧
    (Builder.Drop store id).1 id = none ∧
    (Extractor.Drop store id).1 id = none ∧
    (Extractor.GetSignature (Builder.Drop store id).1 id).2 = Outcome.err "unknown id" ∧
    (Extractor.GetDocumentPart (Builder.Drop store id).1 id m false).2
      = Outcome.err "unknown id" ∧
    (Extractor.AppendDDCPart (Builder.Drop store id).1 id b).2 = Outcome.err "unknown id" ∧
    (Extractor.Parse scan extractRaw (Builder.Drop store id).1 id).2
      = Outcome.err "unknown id" ∧
    (Builder.AppendDocumentPart (Extractor.Drop store id).1 id b).2
      = Outcome.err "unknown id" ∧
    (Builder.GetDDCPart (Extractor.Drop store id).1 id m).2 = Outcome.err "unknown id" ∧
    (Builder.Build scan render (Extractor.Drop store id).1 id args).2
      = Outcome.err "unknown id" := by
  refine ⟨rfl, rfl, ?_, ?_, ?_, ?_, ?_, ?_, ?_, ?_, ?_⟩ <;>
    simp [Builder.Drop, Extractor.Drop, deleteStoreEntry, getStoreEntry,
      Extractor.GetSignature, Extractor.GetDocumentPart, Extractor.AppendDDCPart,
      Extractor.Parse, Builder.AppendDocumentPart, Builder.GetDDCPart, Builder.Build]

/-- Looking up the id just written always finds the written entry. -/
theorem setStoreEntry_self (store : Store) (id : String) (e : Entry) :
    setStoreEntry store id e id = some e := by
  simp [setStoreEntry]

/-- Claim C4 (amended): the builder code tracks no build phase at all, so
for every builder session — built or not — GetDDCPart succeeds without
error (before any Build the output buffer is empty, so it returns an
empty part flagged final), and both Append operations still succeed
without error and mutate the session even after Build; none of these
calls panics. -/
theorem C4_no_build_phase_tracking (store : Store) (id : String) (e : Entry)
    (be : BuilderEntry) (scan : List Nat → Except String Unit) (si : SignatureInfo)
    (b : List Nat) (m : Nat)
    (he : store id = some e) (hbe : e.be = some be) (hscan : scan si.Body = .ok ()) :
    (Builder.GetDDCPart store id m).2
      = Outcome.ok (be.ddcFileBuffer.take m, (be.ddcFileBuffer.drop m).isEmpty) ∧
    (Builder.AppendDocumentPart store id b).2 = Outcome.ok () ∧
    (Builder.AppendDocumentPart store id b).1 id
      = some { e with be := some { be with embeddedFileBuffer := be.embeddedFileBuffer ++ b } } ∧
    (Builder.AppendSignature scan store id si).2 = Outcome.ok () ∧
    (Builder.AppendSignature scan store id si).1 id
      = some { e with be := some ({ be with
          di := { be.di with Signatures := be.di.Signatures ++ [si] } }) } := by
  refine ⟨?_, ?_, ?_, ?_, ?_⟩ <;>
    simp [Builder.GetDDCPart, Builder.AppendDocumentPart, Builder.AppendSignature,
      getStoreEntry, setStoreEntry, he, hbe, hscan]

/-- Witness for C4: the amended behaviour at the concrete sessions of
`storeCross` ("3" fresh) and the post-Build session is exhibited by the
counterexample theorem; here the fresh session "3". -/
theorem C4_no_build_phase_tracking_witness :
    (Builder.GetDDCPart storeCross "3" 10).2 = Outcome.ok ([], true) ∧
    (Builder.AppendDocumentPart storeCross "3" [2]).2 = Outcome.ok () ∧
    (Builder.AppendDocumentPart storeCross "3" [2]).1 "3"
      = some { be := some { beFresh with embeddedFileBuffer := [2] }, ee := none } ∧
    (Builder.AppendSignature scanOkFun storeCross "3" sigInfoA).2 = Outcome.ok () ∧
    (Builder.AppendSignature scanOkFun storeCross "3" sigInfoA).1 "3"
      = some { be := some ({ beFresh with
          di := { beFresh.di with Signatures := [sigInfoA] } }), ee := none } :=
  C4_no_build_phase_tracking storeCross "3" { be := some beFresh, ee := none }
    beFresh scanOkFun sigInfoA [2] 10 rfl rfl rfl

/-- Claim C6: AppendSignature scans the descriptor body before touching
the store; on a scan rejection it returns exactly the scanner's detail
message and leaves the whole store (hence the signature list) unchanged;
on a passing scan it appends the descriptor to the session's signature
list. -/
theorem C6_append_signature_scan_gating (store : Store) (id : String) (e : Entry)
    (be : BuilderEntry) (scan : List Nat → Except String Unit) (si : SignatureInfo)
    (he : store id = some e) (hbe : e.be = some be) :
    (∀ d, scan si.Body = .error d →
      Builder.AppendSignature scan store id si = (store, Outcome.err d)) ∧
    (scan si.Body = .ok () →
      (Builder.AppendSignature scan store id si).2 = Outcome.ok () ∧
      (Builder.AppendSignature scan store id si).1 id
        = some { e with be := some ({ be with
            di := { be.di with Signatures := be.di.Signatures ++ [si] } }) }) := by
  constructor
  · intro d hd
    simp [Builder.AppendSignature, hd]
  · intro hok
    constructor <;>
      simp [Builder.AppendSignature, getStoreEntry, setStoreEntry, he, hbe, hok]

/-- A scan stub standing for `clamAVScan` when the daemon rejects the
payload with a detail message. -/
def scanRejFun : List Nat → Except String Unit :=
  fun _ => .error "stream: Win.Test.EICAR FOUND\n"

/-- Witness for C6 at the fresh builder session "3" of `storeCross`:
a rejected append leaves the store untouched and surfaces the daemon
detail text; a passing append grows the signature list by the
descriptor. -/
theorem C6_append_signature_scan_gating_witness :
    Builder.AppendSignature scanRejFun storeCross "3" sigInfoA
      = (storeCross, Outcome.err "stream: Win.Test.EICAR FOUND\n") ∧
    (Builder.AppendSignature scanOkFun storeCross "3" sigInfoA).2 = Outcome.ok () ∧
    (Builder.AppendSignature scanOkFun storeCross "3" sigInfoA).1 "3"
      = some { be := some ({ beFresh with
          di := { beFresh.di with Signatures := [sigInfoA] } }), ee := none } := by
  have hrej := (C6_append_signature_scan_gating storeCross "3"
    { be := some beFresh, ee := none } beFresh scanRejFun sigInfoA rfl rfl).1
  have hok := (C6_append_signature_scan_gating storeCross "3"
    { be := some beFresh, ee := none } beFresh scanOkFun sigInfoA rfl rfl).2 rfl
  exact ⟨hrej _ rfl, hok.1, hok.2⟩

/-- One `Builder.GetDDCPart` call on a builder session, in closed form. -/
theorem getDDCPart_eq (store : Store) (id : String) (e : Entry) (be : BuilderEntry)
    (m : Nat) (he : store id = some e) (hbe : e.be = some be) :
    Builder.GetDDCPart store id m =
      (setStoreEntry store id
        { e with be := some { be with ddcFileBuffer := be.ddcFileBuffer.drop m } },
       Outcome.ok (be.ddcFileBuffer.take m, (be.ddcFileBuffer.drop m).isEmpty)) := by
  simp [Builder.GetDDCPart, getStoreEntry, he, hbe]


/-- Unfolding one call of the GetDDCPart driver. -/
theorem runGetDDCParts_step (id : String) (m : Nat) (store : Store) (fuel : Nat)
    (store' : Store) (part : List Nat) (fin : Bool)
    (h : Builder.GetDDCPart store id m = (store', Outcome.ok (part, fin))) :
    runGetDDCParts id m store (fuel + 1)
      = if fin then [(part, true)] else (part, false) :: runGetDDCParts id m store' fuel := by
  cases fin <;> simp [runGetDDCParts, h]

/-- Draining a builder session's output buffer with any positive part
size and enough fuel satisfies the chunking contract. -/
theorem runGetDDCParts_spec (id : String) (m : Nat) (hm : 0 < m) :
    ∀ (fuel : Nat) (store : Store) (e : Entry) (be : BuilderEntry),
      store id = some e → e.be = some be → be.ddcFileBuffer.length ≤ fuel →
      chunksOK (runGetDDCParts id m store (fuel + 1)) be.ddcFileBuffer m := by
  intro fuel
  induction fuel with
  | zero =>
    intro store e be he hbe hlen
    have hnil : be.ddcFileBuffer = [] := List.length_eq_zero.mp (Nat.le_zero.mp hlen)
    rw [runGetDDCParts_step id m store 0 _ _ _ (getDDCPart_eq store id e be m he hbe)]
    simp [hnil, chunksOK]
  | succ n ih =>
    intro store e be he hbe hlen
    rw [runGetDDCParts_step id m store (n + 1) _ _ _ (getDDCPart_eq store id e be m he hbe)]
    by_cases hrest : be.ddcFileBuffer.drop m = []
    · have hfin : (be.ddcFileBuffer.drop m).isEmpty = true := by simp [hrest]
      rw [hfin, if_pos rfl]
      have hall : be.ddcFileBuffer.take m = be.ddcFileBuffer := by
        have h2 := List.take_append_drop m be.ddcFileBuffer
        rw [hrest, List.append_nil] at h2
        exact h2
      refine ⟨by simpa using hall, by simp, ?_⟩
      intro p hp
      simp only [List.mem_singleton] at hp
      subst hp
      simp
    · have hmlt : m < be.ddcFileBuffer.length := by
        by_contra hc
        exact hrest (List.drop_eq_nil_of_le (by omega))
      have hfin : (be.ddcFileBuffer.drop m).isEmpty = false := by
        cases h' : be.ddcFileBuffer.drop m with
        | nil => exact absurd h' hrest
        | cons a t => rfl
      rw [hfin, if_neg (by simp)]
      obtain ⟨hflat, hsnd, hsz⟩ := ih
        (setStoreEntry store id
          { e with be := some { be with ddcFileBuffer := be.ddcFileBuffer.drop m } })
        { e with be := some { be with ddcFileBuffer := be.ddcFileBuffer.drop m } }
        { be with ddcFileBuffer := be.ddcFileBuffer.drop m }
        (setStoreEntry_self _ _ _) rfl (by simp; omega)
      simp only at hflat hsnd hsz
      generalize hgl : runGetDDCParts id m
        (setStoreEntry store id
          { e with be := some { be with ddcFileBuffer := be.ddcFileBuffer.drop m } })
        (n + 1) = L at hflat hsnd hsz
      have hK : L.length = (L.length - 1) + 1 := by
        have h3 := congrArg List.length hsnd
        simp [List.length_replicate] at h3
        omega
      refine ⟨?_, ?_, ?_⟩
      · simp only [List.map_cons, List.flatten_cons, hflat]
        exact List.take_append_drop m be.ddcFileBuffer
      · simp only [List.map_cons, List.length_cons, Nat.add_sub_cancel, hsnd]
        rw [show L.length = (L.length - 1) + 1 from hK, List.replicate_succ]
        simp
      · intro p hp
        rcases List.mem_cons.mp hp with hp | hp
        · subst hp
          simp
        · exact hsz p hp

/-- One non-rewinding `Extractor.GetDocumentPart` call on a parsed
session, in closed form, with the cursor abbreviated as `c`. -/
theorem getDocumentPart_false_eq (store : Store) (id : String) (e : Entry)
    (ee : ExtractorEntry) (doc : AttachedFile) (m c : Nat)
    (he : store id = some e) (hee : e.ee = some ee) (hdoc : ee.documentOriginal = some doc)
    (hc : ee.documentOriginalBytesRead = c) :
    Extractor.GetDocumentPart store id m false =
      (setStoreEntry store id
        { e with ee := some { ee with documentOriginalBytesRead :=
            c + (if doc.Bytes.length - c ≤ m then doc.Bytes.length - c else m) } },
       Outcome.ok
         ((doc.Bytes.drop c).take (if doc.Bytes.length - c ≤ m then doc.Bytes.length - c else m),
          decide (doc.Bytes.length - c ≤ m))) := by
  subst hc
  simp [Extractor.GetDocumentPart, getStoreEntry, he, hee, hdoc]

/-- One rewinding `Extractor.GetDocumentPart` call on a parsed session,
in closed form: the cursor is reset to 0 before reading, whatever its
previous value. -/
theorem getDocumentPart_true_eq (store : Store) (id : String) (e : Entry)
    (ee : ExtractorEntry) (doc : AttachedFile) (m : Nat)
    (he : store id = some e) (hee : e.ee = some ee) (hdoc : ee.documentOriginal = some doc) :
    Extractor.GetDocumentPart store id m true =
      (setStoreEntry store id
        { e with ee := some { ee with documentOriginalBytesRead :=
            if doc.Bytes.length ≤ m then doc.Bytes.length else m } },
       Outcome.ok
         (doc.Bytes.take (if doc.Bytes.length ≤ m then doc.Bytes.length else m),
          decide (doc.Bytes.length ≤ m))) := by
  simp [Extractor.GetDocumentPart, getStoreEntry, he, hee, hdoc]

/-- Unfolding one call of the GetDocumentPart driver. -/
theorem runGetDocParts_step (id : String) (m : Nat) (store : Store) (fuel : Nat)
    (store' : Store) (part : List Nat) (fin : Bool)
    (h : Extractor.GetDocumentPart store id m false = (store', Outcome.ok (part, fin))) :
    runGetDocParts id m store (fuel + 1)
      = if fin then [(part, true)] else (part, false) :: runGetDocParts id m store' fuel := by
  cases fin <;> simp [runGetDocParts, h]

/-- Reading a parsed session's document from any cursor position with
any positive part size and enough fuel satisfies the chunking contract
for the part of the document after the cursor. -/
theorem runGetDocParts_spec (id : String) (m : Nat) (hm : 0 < m) :
    ∀ (fuel : Nat) (store : Store) (e : Entry) (ee : ExtractorEntry) (doc : AttachedFile),
      store id = some e → e.ee = some ee → ee.documentOriginal = some doc →
      ee.documentOriginalBytesRead ≤ doc.Bytes.length →
      doc.Bytes.length - ee.documentOriginalBytesRead ≤ fuel →
      chunksOK (runGetDocParts id m store (fuel + 1))
        (doc.Bytes.drop ee.documentOriginalBytesRead) m := by
  intro fuel
  induction fuel with
  | zero =>
    intro store e ee doc he hee hdoc hcle hrem
    rw [runGetDocParts_step id m store 0 _ _ _
      (getDocumentPart_false_eq store id e ee doc m ee.documentOriginalBytesRead he hee hdoc rfl)]
    have hceq : ee.documentOriginalBytesRead = doc.Bytes.length := by omega
    have h0 : doc.Bytes.length - ee.documentOriginalBytesRead = 0 := by omega
    simp [h0, hceq, chunksOK]
  | succ n ih =>
    intro store e ee doc he hee hdoc hcle hrem
    rw [runGetDocParts_step id m store (n + 1) _ _ _
      (getDocumentPart_false_eq store id e ee doc m ee.documentOriginalBytesRead he hee hdoc rfl)]
    by_cases hfin : doc.Bytes.length - ee.documentOriginalBytesRead ≤ m
    · rw [if_pos (by simp [hfin]), if_pos hfin]
      have hlendrop : (doc.Bytes.drop ee.documentOriginalBytesRead).length
          = doc.Bytes.length - ee.documentOriginalBytesRead := by
        simp
      refine ⟨?_, by simp, ?_⟩
      · simp only [List.map_cons, List.map_nil, List.flatten_cons, List.flatten_nil,
          List.append_nil]
        rw [← hlendrop, List.take_length]
      · intro p hp
        simp only [List.mem_singleton] at hp
        subst hp
        have h4 := List.length_take_le (doc.Bytes.length - ee.documentOriginalBytesRead)
          (doc.Bytes.drop ee.documentOriginalBytesRead)
        simp only
        omega
    · rw [if_neg (by simp [hfin]), if_neg hfin]
      obtain ⟨hflat, hsnd, hsz⟩ := ih
        (setStoreEntry store id
          { e with ee := some { ee with documentOriginalBytesRead :=
              ee.documentOriginalBytesRead + m } })
        { e with ee := some { ee with documentOriginalBytesRead :=
            ee.documentOriginalBytesRead + m } }
        { ee with documentOriginalBytesRead := ee.documentOriginalBytesRead + m }
        doc (setStoreEntry_self _ _ _) rfl hdoc (by simp; omega) (by simp; omega)
      simp only at hflat hsnd hsz
      generalize hgl : runGetDocParts id m
        (setStoreEntry store id
          { e with ee := some { ee with documentOriginalBytesRead :=
              ee.documentOriginalBytesRead + m } })
        (n + 1) = L at hflat hsnd hsz
      have hK : L.length = (L.length - 1) + 1 := by
        have h3 := congrArg List.length hsnd
        simp [List.length_replicate] at h3
        omega
      refine ⟨?_, ?_, ?_⟩
      · simp only [List.map_cons, List.flatten_cons, hflat]
        have hdd : (doc.Bytes.drop ee.documentOriginalBytesRead).drop m
            = doc.Bytes.drop (ee.documentOriginalBytesRead + m) := by
          rw [List.drop_drop, Nat.add_comm]
        rw [← hdd]
        exact List.take_append_drop m (doc.Bytes.drop ee.documentOriginalBytesRead)
      · simp only [List.map_cons, List.length_cons, Nat.add_sub_cancel, hsnd]
        rw [show L.length = (L.length - 1) + 1 from hK, List.replicate_succ]
        simp
      · intro p hp
        rcases List.mem_cons.mp hp with hp | hp
        · subst hp
          simp
        · exact hsz p hp

/-- Claim C7: for any maxPartSize ≥ 1 and enough calls, repeatedly
calling GetDDCPart on a built builder session (resp. GetDocumentPart with
rewind=false on a parsed extractor session with cursor 0) until IsFinal
yields chunks of size at most maxPartSize whose concatenation in call
order equals the full output buffer (resp. the full extracted document)
exactly once, with IsFinal true on the last chunk and on no earlier
one. -/
theorem C7_chunked_serving (m fuel₁ fuel₂ : Nat) (hm : 0 < m)
    (store₁ store₂ : Store) (id₁ id₂ : String) (e₁ e₂ : Entry)
    (be : BuilderEntry) (ee : ExtractorEntry) (doc : AttachedFile)
    (h₁ : store₁ id₁ = some e₁) (hbe : e₁.be = some be)
    (hf₁ : be.ddcFileBuffer.length ≤ fuel₁)
    (h₂ : store₂ id₂ = some e₂) (hee : e₂.ee = some ee)
    (hdoc : ee.documentOriginal = some doc) (hcur : ee.documentOriginalBytesRead = 0)
    (hf₂ : doc.Bytes.length ≤ fuel₂) :
    chunksOK (runGetDDCParts id₁ m store₁ (fuel₁ + 1)) be.ddcFileBuffer m ∧
    chunksOK (runGetDocParts id₂ m store₂ (fuel₂ + 1)) doc.Bytes m := by
  constructor
  · exact runGetDDCParts_spec id₁ m hm fuel₁ store₁ e₁ be h₁ hbe hf₁
  · have h5 := runGetDocParts_spec id₂ m hm fuel₂ store₂ e₂ ee doc h₂ hee hdoc
      (by omega) (by omega)
    rw [hcur, List.drop_zero] at h5
    exact h5

/-- Witness for C7: serving the built session "6" (output `[7, 8]`) and
the parsed session "8" (document `[5, 6, 7]`) with maxPartSize 2. -/
theorem C7_chunked_serving_witness :
    chunksOK (runGetDDCParts "6" 2 storeServe 3) beBuilt.ddcFileBuffer 2 ∧
    chunksOK (runGetDocParts "8" 2 storeSig 4) docFileA.Bytes 2 :=
  C7_chunked_serving 2 2 3 (by decide) storeServe storeSig "6" "8"
    { be := some beBuilt, ee := none } { be := none, ee := some eeOneSig }
    beBuilt eeOneSig docFileA rfl rfl (by decide) rfl rfl rfl rfl (by decide)

/-- Claim C9: a full read beginning with rewind=true resets the cursor
first, so from *any* cursor position and any signature-queue state the
returned parts concatenate to the complete document (first conjunct:
the result does not depend on the previous cursor or on how many
signatures were consumed); GetSignature rewrites only the signature
queue, leaving the document and cursor untouched (second conjunct); and
GetDocumentPart keeps the document and queue intact (third conjunct), so
the whole rewound read can be repeated with the same outcome. -/
theorem C9_rewound_reads_idempotent (m fuel : Nat) (hm : 0 < m)
    (store : Store) (id : String) (e : Entry) (ee : ExtractorEntry) (doc : AttachedFile)
    (he : store id = some e) (hee : e.ee = some ee) (hdoc : ee.documentOriginal = some doc)
    (hfuel : doc.Bytes.length ≤ fuel) :
    ((runRewindRead store id m fuel).map Prod.fst).flatten = doc.Bytes ∧
    (∀ s rest, ee.signatures = some (s :: rest) →
      (Extractor.GetSignature store id).1 id
        = some { e with ee := some ({ ee with signatures := some rest }) }) ∧
    (∀ (mp : Nat) (rwd : Bool), ∃ ee',
      (Extractor.GetDocumentPart store id mp rwd).1 id = some { e with ee := some ee' } ∧
      ee'.documentOriginal = some doc ∧ ee'.signatures = ee.signatures) := by
  refine ⟨?_, ?_, ?_⟩
  · simp only [runRewindRead, getDocumentPart_true_eq store id e ee doc m he hee hdoc]
    by_cases hfin : doc.Bytes.length ≤ m
    · simp only [if_pos hfin, decide_eq_true hfin]
      simp [List.take_length]
    · simp only [if_neg hfin, decide_eq_false hfin]
      rcases fuel with - | f
      · omega
      · have h6 := runGetDocParts_spec id m hm f
          (setStoreEntry store id
            { e with ee := some { ee with documentOriginalBytesRead := m } })
          { e with ee := some { ee with documentOriginalBytesRead := m } }
          { ee with documentOriginalBytesRead := m } doc
          (setStoreEntry_self _ _ _) rfl hdoc (by simp; omega) (by simp; omega)
        simp only at h6
        obtain ⟨hflat, -, -⟩ := h6
        simp only [List.map_cons, List.flatten_cons, hflat]
        exact List.take_append_drop m doc.Bytes
  · intro s rest hsig
    simp [Extractor.GetSignature, getStoreEntry, setStoreEntry, he, hee, hsig]
  · intro mp rwd
    cases rwd
    · refine ⟨{ ee with documentOriginalBytesRead :=
          ee.documentOriginalBytesRead +
            (if doc.Bytes.length - ee.documentOriginalBytesRead ≤ mp
             then doc.Bytes.length - ee.documentOriginalBytesRead else mp) }, ?_, hdoc, rfl⟩
      rw [getDocumentPart_false_eq store id e ee doc mp ee.documentOriginalBytesRead
        he hee hdoc rfl]
      exact setStoreEntry_self _ _ _
    · refine ⟨{ ee with documentOriginalBytesRead :=
          if doc.Bytes.length ≤ mp then doc.Bytes.length else mp }, ?_, hdoc, rfl⟩
      rw [getDocumentPart_true_eq store id e ee doc mp he hee hdoc]
      exact setStoreEntry_self _ _ _

/-- Witness for C9: the parsed session "8" (document `[5, 6, 7]`, one
queued signature) read in full with rewind and part size 2; popping the
signature leaves the document fields as they were. -/
theorem C9_rewound_reads_idempotent_witness :
    ((runRewindRead storeSig "8" 2 3).map Prod.fst).flatten = docFileA.Bytes ∧
    (Extractor.GetSignature storeSig "8").1 "8"
      = some { be := none, ee := some ({ eeOneSig with signatures := some [] }) } := by
  have h := C9_rewound_reads_idempotent 2 3 (by decide) storeSig "8"
    { be := none, ee := some eeOneSig } eeOneSig docFileA rfl rfl rfl (by decide)
  exact ⟨h.1, h.2.1 sigFileA [] rfl⟩

/-- Feeding chunks through `Builder.AppendDocumentPart` appends their
concatenation to the session's embedded-document buffer. -/
theorem runAppendDocumentParts_spec (id : String) :
    ∀ (chunks : List (List Nat)) (store : Store) (e : Entry) (be : BuilderEntry),
      store id = some e → e.be = some be →
      ∃ be', runAppendDocumentParts id store chunks id = some { e with be := some be' } ∧
        be'.embeddedFileBuffer = be.embeddedFileBuffer ++ chunks.flatten := by
  intro chunks
  induction chunks with
  | nil =>
    intro store e be he hbe
    refine ⟨be, ?_, by simp⟩
    simp only [runAppendDocumentParts]
    rw [he, ← hbe]
  | cons c cs ih =>
    intro store e be he hbe
    have hstep : Builder.AppendDocumentPart store id c
        = (setStoreEntry store id
            { e with be := some { be with embeddedFileBuffer := be.embeddedFileBuffer ++ c } },
           Outcome.ok ()) := by
      simp [Builder.AppendDocumentPart, getStoreEntry, he, hbe]
    simp only [runAppendDocumentParts, hstep]
    obtain ⟨be', hfind, hbuf⟩ := ih
      (setStoreEntry store id
        { e with be := some { be with embeddedFileBuffer := be.embeddedFileBuffer ++ c } })
      { e with be := some { be with embeddedFileBuffer := be.embeddedFileBuffer ++ c } }
      { be with embeddedFileBuffer := be.embeddedFileBuffer ++ c }
      (setStoreEntry_self _ _ _) rfl
    refine ⟨be', hfind, ?_⟩
    rw [hbuf]
    simp

/-- Feeding chunks through `Extractor.AppendDDCPart` appends their
concatenation to the session's input buffer. -/
theorem runAppendDDCParts_spec (id : String) :
    ∀ (chunks : List (List Nat)) (store : Store) (e : Entry) (ee : ExtractorEntry),
      store id = some e → e.ee = some ee →
      ∃ ee', runAppendDDCParts id store chunks id = some { e with ee := some ee' } ∧
        ee'.ddcFileBuffer = ee.ddcFileBuffer ++ chunks.flatten := by
  intro chunks
  induction chunks with
  | nil =>
    intro store e ee he hee
    refine ⟨ee, ?_, by simp⟩
    simp only [runAppendDDCParts]
    rw [he, ← hee]
  | cons c cs ih =>
    intro store e ee he hee
    have hstep : Extractor.AppendDDCPart store id c
        = (setStoreEntry store id
            { e with ee := some { ee with ddcFileBuffer := ee.ddcFileBuffer ++ c } },
           Outcome.ok ()) := by
      simp [Extractor.AppendDDCPart, getStoreEntry, he, hee]
    simp only [runAppendDDCParts, hstep]
    obtain ⟨ee', hfind, hbuf⟩ := ih
      (setStoreEntry store id
        { e with ee := some { ee with ddcFileBuffer := ee.ddcFileBuffer ++ c } })
      { e with ee := some { ee with ddcFileBuffer := ee.ddcFileBuffer ++ c } }
      { ee with ddcFileBuffer := ee.ddcFileBuffer ++ c }
      (setStoreEntry_self _ _ _) rfl
    refine ⟨ee', hfind, ?_⟩
    rw [hbuf]
    simp

/-- Claim C8: for every buffer B and every splitting of B into ordered
chunks, feeding the chunks in order through AppendDocumentPart (resp.
AppendDDCPart) on a session whose buffer starts empty leaves the
accumulated buffer equal to B, whatever the chunk boundaries. -/
theorem C8_chunked_upload_transparent (store₁ store₂ : Store) (id₁ id₂ : String)
    (e₁ e₂ : Entry) (be : BuilderEntry) (ee : ExtractorEntry) (B : List Nat)
    (chunks₁ chunks₂ : List (List Nat))
    (h₁ : store₁ id₁ = some e₁) (hbe : e₁.be = some be)
    (hb₁ : be.embeddedFileBuffer = []) (hj₁ : chunks₁.flatten = B)
    (h₂ : store₂ id₂ = some e₂) (hee : e₂.ee = some ee)
    (hb₂ : ee.ddcFileBuffer = []) (hj₂ : chunks₂.flatten = B) :
    (∃ be', runAppendDocumentParts id₁ store₁ chunks₁ id₁ = some { e₁ with be := some be' } ∧
       be'.embeddedFileBuffer = B) ∧
    (∃ ee', runAppendDDCParts id₂ store₂ chunks₂ id₂ = some { e₂ with ee := some ee' } ∧
       ee'.ddcFileBuffer = B) := by
  constructor
  · obtain ⟨be', hf, hbuf⟩ := runAppendDocumentParts_spec id₁ chunks₁ store₁ e₁ be h₁ hbe
    exact ⟨be', hf, by rw [hbuf, hb₁, hj₁, List.nil_append]⟩
  · obtain ⟨ee', hf, hbuf⟩ := runAppendDDCParts_spec id₂ chunks₂ store₂ e₂ ee h₂ hee
    exact ⟨ee', hf, by rw [hbuf, hb₂, hj₂, List.nil_append]⟩

/-- Witness for C8: two different chunkings of `[1, 2, 3]` fed into the
fresh builder session "3" and the fresh extractor session "5" both leave
the respective buffer equal to `[1, 2, 3]`. -/
theorem C8_chunked_upload_transparent_witness :
    (∃ be', runAppendDocumentParts "3" storeCross [[1], [2, 3]] "3"
        = some { be := some be', ee := none } ∧ be'.embeddedFileBuffer = [1, 2, 3]) ∧
    (∃ ee', runAppendDDCParts "5" storeSig [[1, 2], [3]] "5"
        = some { be := none, ee := some ee' } ∧ ee'.ddcFileBuffer = [1, 2, 3]) :=
  C8_chunked_upload_transparent storeCross storeSig "3" "5"
    { be := some beFresh, ee := none } { be := none, ee := some eeFresh }
    beFresh eeFresh [1, 2, 3] [[1], [2, 3]] [[1, 2], [3]]
    rfl rfl rfl rfl rfl rfl rfl rfl

/-- Claim C5: Parse on a session whose extraction yields fewer than two
attachments fails with the descriptive count-mismatch error and changes
nothing — the whole store is untouched and the session still accepts
AppendDDCPart; on success the first attachment becomes the extracted
document and the remaining attachments the signature queue in original
order, committed only after the scan of the whole input, of the document
and of every signature all pass; and no error outcome of Parse commits
any state. -/
theorem C5_parse_commit_discipline (store : Store) (id : String) (e : Entry)
    (ee : ExtractorEntry) (scan : List Nat → Except String Unit)
    (extractRaw : List Nat → Except String (List AttachedFile))
    (he : store id = some e) (hee : e.ee = some ee) :
    (∀ atts, scan ee.ddcFileBuffer = .ok () → extractRaw ee.ddcFileBuffer = .ok atts →
      atts.length < 2 →
      Extractor.Parse scan extractRaw store id
        = (store, Outcome.err
            ("PDF contains less than " ++ toString atts.length ++ " attachments (2)"))) ∧
    (∀ b, (Extractor.AppendDDCPart store id b).2 = Outcome.ok ()) ∧
    (∀ a s rest, scan ee.ddcFileBuffer = .ok () →
      extractRaw ee.ddcFileBuffer = .ok (a :: s :: rest) →
      scan a.Bytes = .ok () → scanAll scan (s :: rest) = .ok () →
      (Extractor.Parse scan extractRaw store id).2 = Outcome.ok a.Name ∧
      (Extractor.Parse scan extractRaw store id).1 id
        = some { e with ee := some ({ ee with
            documentOriginal := some a, signatures := some (s :: rest) }) }) ∧
    (∀ msg, (Extractor.Parse scan extractRaw store id).2 = Outcome.err msg →
      (Extractor.Parse scan extractRaw store id).1 = store) := by
  refine ⟨?_, ?_, ?_, ?_⟩
  · intro atts hscan hext hlen
    rcases atts with - | ⟨a, - | ⟨s, rest⟩⟩
    · simp [Extractor.Parse, getStoreEntry, he, hee, hscan, ExtractAttachments, hext]
    · simp [Extractor.Parse, getStoreEntry, he, hee, hscan, ExtractAttachments, hext]
    · simp at hlen
      omega
  · intro b
    simp [Extractor.AppendDDCPart, getStoreEntry, he, hee]
  · intro a s rest hscan hext hsa hall
    constructor <;>
      simp [Extractor.Parse, getStoreEntry, setStoreEntry, he, hee, hscan,
        ExtractAttachments, hext, hsa, hall]
  · intro msg
    cases hscan : scan ee.ddcFileBuffer with
    | error m2 => simp [Extractor.Parse, getStoreEntry, he, hee, hscan]
    | ok u =>
      cases hext : ExtractAttachments extractRaw ee.ddcFileBuffer with
      | error m2 => simp [Extractor.Parse, getStoreEntry, he, hee, hscan, hext]
      | ok p =>
        obtain ⟨a, sigs⟩ := p
        cases hsa : scan a.Bytes with
        | error m2 => simp [Extractor.Parse, getStoreEntry, he, hee, hscan, hext, hsa]
        | ok u2 =>
          cases hall : scanAll scan sigs with
          | error m2 =>
            simp [Extractor.Parse, getStoreEntry, he, hee, hscan, hext, hsa, hall]
          | ok u3 =>
            simp [Extractor.Parse, getStoreEntry, he, hee, hscan, hext, hsa, hall]

/-- Witness for C5: on the fresh extractor session "5", a one-attachment
extraction fails with the count error and leaves the store unchanged
(appending still works), while a two-attachment extraction commits the
document and the one-element signature queue and returns the document
file name. -/
theorem C5_parse_commit_discipline_witness :
    Extractor.Parse scanOkFun extractShort storeSig "5"
      = (storeSig, Outcome.err "PDF contains less than 1 attachments (2)") ∧
    (Extractor.AppendDDCPart storeSig "5" [4]).2 = Outcome.ok () ∧
    (Extractor.Parse scanOkFun extractTwo storeSig "5").2 = Outcome.ok "doc.pdf" ∧
    (Extractor.Parse scanOkFun extractTwo storeSig "5").1 "5"
      = some { be := none, ee := some ({ eeFresh with
          documentOriginal := some docFileA, signatures := some [sigFileA] }) } := by
  have h1 := C5_parse_commit_discipline storeSig "5" { be := none, ee := some eeFresh }
    eeFresh scanOkFun extractShort rfl rfl
  have h2 := C5_parse_commit_discipline storeSig "5" { be := none, ee := some eeFresh }
    eeFresh scanOkFun extractTwo rfl rfl
  refine ⟨h1.1 [docFileA] rfl rfl (by decide), h1.2.1 [4],
    (h2.2.2.1 docFileA sigFileA [] rfl rfl rfl rfl).1,
    (h2.2.2.1 docFileA sigFileA [] rfl rfl rfl rfl).2⟩
